import Mathlib

/-!
# Verification of the w8y distributed claim protocol (src/main.go)

Shallow embedding of the core of `w8y`: bounded traversal of a circular
redis list (`LLEN` once, then `LMOVE left right` per step), an existence
check of the per-item processing key (`EXISTS`), worker supervision, and a
background keep-alive loop (`SETEX` once, then periodic `EXPIRE`).

Store responses during the traversal are supplied by an `Oracle`: an
adversarial environment standing for the remote store under concurrent
external mutation.  The run is a deterministic function of the oracle and
produces an event trace, mirroring the control flow of `main` in
src/main.go line by line.
-/

namespace W8y

/-- Work items and redis keys are strings; we model them as `List Char`. -/
abbrev Str := List Char

/-- Result of a single store call: either a value or a transport/store error
(`redis.Cmd.Result()` returning a non-nil error in the Go source). -/
inductive Resp (α : Type) where
  | ok : α → Resp α
  | err : Resp α
  deriving DecidableEq, Repr

/-- Outcome of `cmd.Wait()` in `main` (src/main.go:102-114):
`success` is a nil error, `exitErr c` is an `*exec.ExitError` whose
`ExitCode()` is `c`, `otherErr` is any other non-nil error. -/
inductive WaitResult where
  | success
  | exitErr (code : Int)
  | otherErr
  deriving DecidableEq, Repr

/-- Exit-code mapping performed at src/main.go:107-114: an `ExitError`
propagates the worker's code, any other error maps to 2, otherwise the
code stays 0. -/
def waitCode : WaitResult → Int
  | .success => 0
  | .exitErr c => c
  | .otherErr => 2

/-- The environment of one run: responses of the remote store to the i-th
call of each kind, plus the local worker behaviour.  Indexing each rotate
and existence query separately lets the store answers drift under
concurrent external mutation. -/
structure Oracle where
  llenResp : Resp Int
  lmoveResp : Nat → Resp Str
  existsResp : Nat → Resp Int
  startOk : Bool
  waitResult : WaitResult

/-- Events emitted by the embedded `main`, in program order.  `del` is the
ownership-checked delete the specification calls `ReleaseIfOwned`; it is a
possible event of the vocabulary so that its absence from every trace is a
statement about the code, not about the alphabet. -/
inductive Ev where
  | llen
  | lmove (i : Nat)
  | existsQ (i : Nat)
  | workerStart
  | spawnKeepAlive
  | workerWait
  | closeIsComplete
  | waitDone
  | del
  deriving DecidableEq, Repr

/-- Result of a run of the embedded `main`: the process exit code, the
program-order event trace, the claimed item if any, and whether the
keep-alive task (whose first act creates the lease key) was spawned. -/
structure RunOut where
  exitCode : Int
  trace : List Ev
  claimed : Option Str
  keepAliveSpawned : Bool
  deriving DecidableEq, Repr

/-- The claim path of `main` (src/main.go:80-124) once `EXISTS` returned 0
for the item popped at iteration `i`: start the worker, spawn `keepAlive`,
wait for the worker, close `isComplete`, wait on `done`, break. A failed
`cmd.Start()` jumps to `maybeContinue` with exit code 2 and breaks without
ever spawning `keepAlive`. -/
def claimPath (o : Oracle) (i : Nat) (item : Str) : RunOut :=
  if o.startOk then
    { exitCode := waitCode o.waitResult
      trace := [.lmove i, .existsQ i, .workerStart, .spawnKeepAlive,
                .workerWait, .closeIsComplete, .waitDone]
      claimed := some item
      keepAliveSpawned := true }
  else
    { exitCode := 2
      trace := [.lmove i, .existsQ i, .workerStart]
      claimed := none
      keepAliveSpawned := false }

/-- The traversal loop of `main` (src/main.go:57-125): `rem` is the number
of iterations left of the bound read up front, `i` the current iteration.
Each iteration rotates the list with `LMOVE`, queries `EXISTS` on the
processing key, and either continues (key present), aborts with exit code 2
(store error), or enters the claim path.  The loop falling off the end
reaches `os.Exit(exitCode)` with `exitCode` still 0. -/
def mainLoop (o : Oracle) : Nat → Nat → RunOut
  | 0, _ =>
    { exitCode := 0, trace := [], claimed := none, keepAliveSpawned := false }
  | rem + 1, i =>
    match o.lmoveResp i with
    | .err =>
      { exitCode := 2, trace := [.lmove i], claimed := none,
        keepAliveSpawned := false }
    | .ok item =>
      match o.existsResp i with
      | .err =>
        { exitCode := 2, trace := [.lmove i, .existsQ i], claimed := none,
          keepAliveSpawned := false }
      | .ok procKeyExists =>
        if procKeyExists ≠ 0 then
          let r := mainLoop o rem (i + 1)
          { r with trace := .lmove i :: .existsQ i :: r.trace }
        else
          claimPath o i item

/-- The embedded `main` (src/main.go:36-127): read `LLEN` once; an error
exits 2, a non-positive length exits 0 with no work; otherwise run the
traversal loop with the length as the iteration bound. -/
def runMain (o : Oracle) : RunOut :=
  match o.llenResp with
  | .err =>
    { exitCode := 2, trace := [.llen], claimed := none,
      keepAliveSpawned := false }
  | .ok listLen =>
    if listLen ≤ 0 then
      { exitCode := 0, trace := [.llen], claimed := none,
        keepAliveSpawned := false }
    else
      let r := mainLoop o listLen.toNat 0
      { r with trace := .llen :: r.trace }

/-- Number of rotate (`LMOVE`) operations in a trace. -/
def rotationCount : List Ev → Nat
  | [] => 0
  | .lmove _ :: t => rotationCount t + 1
  | _ :: t => rotationCount t

/-- `LMOVE listKey listKey left right` (src/main.go:59) as a pure operation
on the list value: remove the head and append it as the new tail; redis
replies nil on an empty list. -/
def lmoveLeftRight (l : List Str) : Option (Str × List Str) :=
  match l with
  | [] => none
  | h :: t => some (h, t ++ [h])

/-! ## The keep-alive task (src/main.go:300-337)

The processing key is modeled as `Option Nat`: `some ttl` when the key
exists with remaining time-to-live `ttl`, `none` when it does not.  The
task first runs `SETEX procKey 1 expiry` (an unconditional timed create),
then loops on two wait sources — the half-expiry ticker and the
`isComplete` channel — issuing `EXPIRE procKey expiry` on each tick.  The
loop's inputs are modeled as a list of events; `extExpire` stands for the
store expiring or deleting the key between loop iterations (external to
the task). -/

/-- `SETEX key 1 expiry` (src/main.go:309): creates or overwrites the key
unconditionally, setting its time-to-live. -/
def setexOp (expiry : Nat) (_s : Option Nat) : Option Nat := some expiry

/-- `EXPIRE key expiry` (src/main.go:324): resets the time-to-live of an
existing key and reports `true`; on a missing key it reports `false` and
creates nothing. -/
def expireOp (expiry : Nat) (s : Option Nat) : Option Nat × Bool :=
  match s with
  | some _ => (some expiry, true)
  | none => (none, false)

/-- Events consumed by or interleaved with the keep-alive loop. -/
inductive KAEv where
  | tick
  | stop
  | extExpire
  deriving DecidableEq, Repr

/-- Store operations the keep-alive task issues, in order. -/
inductive KAAct where
  | setex
  | expire (updated : Bool)
  deriving DecidableEq, Repr

/-- Result of running the keep-alive task: final key state, the operations
issued, count of failed-renewal log lines, and whether the loop exited via
the stop signal. -/
structure KAOut where
  lease : Option Nat
  acts : List KAAct
  notUpdatedLogs : Nat
  stopped : Bool
  deriving DecidableEq, Repr

/-- The `select` loop of `keepAlive` (src/main.go:316-331): a stop signal
breaks the loop at once; a tick issues one `EXPIRE`, logging (and
continuing) when the key was gone; an external expiry changes the store
state without the loop observing it. -/
def kaLoop (expiry : Nat) : Option Nat → List KAEv → KAOut
  | s, [] => { lease := s, acts := [], notUpdatedLogs := 0, stopped := false }
  | s, .stop :: _ => { lease := s, acts := [], notUpdatedLogs := 0, stopped := true }
  | s, .tick :: rest =>
    let (s', updated) := expireOp expiry s
    let r := kaLoop expiry s' rest
    { r with acts := .expire updated :: r.acts,
             notUpdatedLogs := (if updated then 0 else 1) + r.notUpdatedLogs }
  | _s, .extExpire :: rest => kaLoop expiry none rest

/-- The renewal interval: `duration := expiry / 2` (src/main.go:306). -/
def renewInterval (expiry : Nat) : Nat := expiry / 2

/-- The whole `keepAlive` task (src/main.go:300-337): mark the record with
`SETEX`, then run the renewal loop. -/
def keepAlive (expiry : Nat) (s : Option Nat) (evs : List KAEv) : KAOut :=
  let r := kaLoop expiry (setexOp expiry s) evs
  { r with acts := .setex :: r.acts }

/-! ## The claim race (src/main.go:67 and src/main.go:309)

A claim attempt on one processing key is, at the store, the two-operation
sequence `EXISTS procKey` (src/main.go:67) followed — only when the check
reported 0, and only after the worker has been started — by the
unconditional `SETEX procKey 1 expiry` (src/main.go:309).  Two attempts by
independent w8y processes on the same key are modeled as a schedule
interleaving their operations against the shared key state. -/

/-- One claim attempt's control state: `pc = 0` before its `EXISTS`,
`pc = 1` between a successful check and its `SETEX`, `pc = 2` done.
`sawAbsent` records whether the existence check reported 0. -/
structure Attempt where
  pc : Nat
  sawAbsent : Bool
  deriving DecidableEq, Repr

/-- Run one store operation of an attempt against the shared key. -/
def attemptStep (expiry : Nat) (st : Attempt) (key : Option Nat) :
    Attempt × Option Nat :=
  match st.pc with
  | 0 =>
    if key.isSome then ({ pc := 2, sawAbsent := false }, key)
    else ({ pc := 1, sawAbsent := true }, key)
  | 1 => ({ pc := 2, sawAbsent := st.sawAbsent }, setexOp expiry key)
  | _ => (st, key)

/-- An attempt holds the claim when it ran to completion having seen the
key absent (the branch of src/main.go:73-80 that proceeds to the worker). -/
def acquired (st : Attempt) : Bool := st.pc == 2 && st.sawAbsent

/-- Interleave two claim attempts on the same key: `true` schedules a step
of attempt A, `false` a step of attempt B. -/
def runRace (expiry : Nat) :
    List Bool → Attempt × Attempt × Option Nat → Attempt × Attempt × Option Nat
  | [], st => st
  | c :: rest, (a, b, key) =>
    if c then
      let (a', key') := attemptStep expiry a key
      runRace expiry rest (a', b, key')
    else
      let (b', key') := attemptStep expiry b key
      runRace expiry rest (a, b', key')

/-- The initial control state of a claim attempt. -/
def attempt0 : Attempt := { pc := 0, sawAbsent := false }

/-! ## Worker environment construction (src/main.go:274-290)

`prepareProcess` builds the child environment from the parent environment
(a list of `"k=v"` entries): it first appends the single binding
`workItemKey=workItem`, then copies every parent entry that does not start
with `"W8Y_"`. -/

/-- The `"W8Y_"` prefix used by the filter at src/main.go:283. -/
def w8yPrefix : Str := ['W', '8', 'Y', '_']

/-- One environment entry `k=v` as Go's `os.Environ` yields it. -/
def envEntry (k v : Str) : Str := k ++ '=' :: v

/-- The environment built at src/main.go:275-288: the work-item binding
first, then the parent entries whose `"k=v"` string does not begin with
`"W8Y_"`. -/
def prepareEnv (workItemKey workItem : Str) (osEnv : List Str) : List Str :=
  envEntry workItemKey workItem ::
    osEnv.filter fun kv => !(w8yPrefix.isPrefixOf kv)

/-! ## Observation helpers on traces -/

/-- Whether `e` occurs in the list. -/
def occursB {α : Type} [DecidableEq α] (e : α) (t : List α) : Bool :=
  t.any fun x => decide (x = e)

/-- Whether some occurrence of `e1` lies strictly before some occurrence of
`e2` in the list. -/
def precedesB {α : Type} [DecidableEq α] (e1 e2 : α) : List α → Bool
  | [] => false
  | e :: rest => (decide (e = e1) && occursB e2 rest) || precedesB e1 e2 rest

/-- Number of `LLEN` calls in a trace. -/
def llenCount : List Ev → Nat
  | [] => 0
  | .llen :: t => llenCount t + 1
  | _ :: t => llenCount t

/-- Number of `EXPIRE` calls the keep-alive task issued. -/
def countExpire : List KAAct → Nat
  | [] => 0
  | .expire _ :: t => countExpire t + 1
  | _ :: t => countExpire t

/-- Number of ticker firings strictly before the first stop signal. -/
def ticksBefore : List KAEv → Nat
  | [] => 0
  | .stop :: _ => 0
  | .tick :: t => ticksBefore t + 1
  | .extExpire :: t => ticksBefore t

/-! ## Concrete runs used as witnesses and counterexamples -/

/-- A store whose list is empty. -/
def oracleEmpty : Oracle :=
  { llenResp := .ok 0, lmoveResp := fun _ => .err, existsResp := fun _ => .err,
    startOk := true, waitResult := .success }

/-- A store that fails the initial `LLEN` call. -/
def oracleLlenErr : Oracle :=
  { llenResp := .err, lmoveResp := fun _ => .err, existsResp := fun _ => .err,
    startOk := true, waitResult := .success }

/-- A one-item list whose item is unclaimed; the worker exits cleanly. -/
def oracleClaim : Oracle :=
  { llenResp := .ok 1, lmoveResp := fun _ => .ok ['a'],
    existsResp := fun _ => .ok 0, startOk := true, waitResult := .success }

/-- A one-item list whose item is unclaimed; the worker exits with code 0
reported through an exit error. -/
def oracleWorkerZero : Oracle :=
  { llenResp := .ok 1, lmoveResp := fun _ => .ok ['a'],
    existsResp := fun _ => .ok 0, startOk := true, waitResult := .exitErr 0 }

/-- A one-item list whose item is unclaimed; the worker exits with code 7. -/
def oracleWorkerSeven : Oracle :=
  { llenResp := .ok 1, lmoveResp := fun _ => .ok ['a'],
    existsResp := fun _ => .ok 0, startOk := true, waitResult := .exitErr 7 }

/-- A one-item list where `LMOVE` fails at the store. -/
def oracleLmoveErr : Oracle :=
  { llenResp := .ok 1, lmoveResp := fun _ => .err, existsResp := fun _ => .err,
    startOk := true, waitResult := .success }

/-- A one-item list where the `EXISTS` check fails at the store. -/
def oracleExistsErr : Oracle :=
  { llenResp := .ok 1, lmoveResp := fun _ => .ok ['a'],
    existsResp := fun _ => .err, startOk := true, waitResult := .success }

/-! ## Structural lemmas about the traversal loop -/

theorem mainLoop_llenCount (o : Oracle) :
    ∀ rem i, llenCount (mainLoop o rem i).trace = 0 := by
  intro rem
  induction rem with
  | zero => intro i; simp [mainLoop, llenCount]
  | succ n ih =>
    intro i
    unfold mainLoop
    cases o.lmoveResp i with
    | err => simp [llenCount]
    | ok item =>
      cases o.existsResp i with
      | err => simp [llenCount]
      | ok ex =>
        by_cases hex : ex ≠ 0
        · simp only [if_pos hex, llenCount]
          exact ih (i + 1)
        · simp only [if_neg hex]
          unfold claimPath
          split <;> simp [llenCount]

theorem mainLoop_rotation_le (o : Oracle) :
    ∀ rem i, rotationCount (mainLoop o rem i).trace ≤ rem := by
  intro rem
  induction rem with
  | zero => intro i; simp [mainLoop, rotationCount]
  | succ n ih =>
    intro i
    unfold mainLoop
    cases o.lmoveResp i with
    | err => simp [rotationCount]
    | ok item =>
      cases o.existsResp i with
      | err => simp [rotationCount]
      | ok ex =>
        by_cases hex : ex ≠ 0
        · simp only [if_pos hex, rotationCount]
          exact Nat.succ_le_succ (ih (i + 1))
        · simp only [if_neg hex]
          unfold claimPath
          split <;> simp [rotationCount]

theorem mainLoop_no_del (o : Oracle) :
    ∀ rem i, occursB Ev.del (mainLoop o rem i).trace = false := by
  intro rem
  induction rem with
  | zero => intro i; simp [mainLoop, occursB]
  | succ n ih =>
    intro i
    unfold mainLoop
    cases o.lmoveResp i with
    | err => simp [occursB]
    | ok item =>
      cases o.existsResp i with
      | err => simp [occursB]
      | ok ex =>
        by_cases hex : ex ≠ 0
        · simp only [if_pos hex]
          have := ih (i + 1)
          simp [occursB] at this ⊢
          exact this
        · simp only [if_neg hex]
          unfold claimPath
          split <;> simp [occursB]

theorem mainLoop_claimed_exitCode (o : Oracle) :
    ∀ rem i, (mainLoop o rem i).claimed.isSome →
      (mainLoop o rem i).exitCode = waitCode o.waitResult := by
  intro rem
  induction rem with
  | zero => intro i h; simp [mainLoop] at h
  | succ n ih =>
    intro i
    unfold mainLoop
    cases o.lmoveResp i with
    | err => intro h; simp at h
    | ok item =>
      cases o.existsResp i with
      | err => intro h; simp at h
      | ok ex =>
        by_cases hex : ex ≠ 0
        · simp only [if_pos hex]
          exact ih (i + 1)
        · simp only [if_neg hex]
          unfold claimPath
          split
          · intro _; rfl
          · intro h; simp at h

theorem mainLoop_spawned_suffix (o : Oracle) :
    ∀ rem i, (mainLoop o rem i).keepAliveSpawned = true →
      [Ev.workerWait, Ev.closeIsComplete, Ev.waitDone] <:+
        (mainLoop o rem i).trace := by
  intro rem
  induction rem with
  | zero => intro i h; simp [mainLoop] at h
  | succ n ih =>
    intro i
    unfold mainLoop
    cases o.lmoveResp i with
    | err => intro h; simp at h
    | ok item =>
      cases o.existsResp i with
      | err => intro h; simp at h
      | ok ex =>
        by_cases hex : ex ≠ 0
        · simp only [if_pos hex]
          intro h
          obtain ⟨s, hs⟩ := ih (i + 1) h
          exact ⟨Ev.lmove i :: Ev.existsQ i :: s, by simp [hs]⟩
        · simp only [if_neg hex]
          unfold claimPath
          split
          · intro _
            exact ⟨[Ev.lmove i, Ev.existsQ i, Ev.workerStart,
                    Ev.spawnKeepAlive], rfl⟩
          · intro h; simp at h

theorem precedesB_cons_of {α : Type} [DecidableEq α] (e1 e2 x : α)
    (t : List α) (h : precedesB e1 e2 t = true) :
    precedesB e1 e2 (x :: t) = true := by
  simp [precedesB, h]

theorem mainLoop_start_precedes_spawn (o : Oracle) :
    ∀ rem i, (mainLoop o rem i).keepAliveSpawned = true →
      precedesB Ev.workerStart Ev.spawnKeepAlive (mainLoop o rem i).trace
        = true := by
  intro rem
  induction rem with
  | zero => intro i h; simp [mainLoop] at h
  | succ n ih =>
    intro i
    unfold mainLoop
    cases o.lmoveResp i with
    | err => intro h; simp at h
    | ok item =>
      cases o.existsResp i with
      | err => intro h; simp at h
      | ok ex =>
        by_cases hex : ex ≠ 0
        · simp only [if_pos hex]
          intro h
          exact precedesB_cons_of _ _ _ _
            (precedesB_cons_of _ _ _ _ (ih (i + 1) h))
        · simp only [if_neg hex]
          unfold claimPath
          split
          · intro _; simp [precedesB, occursB]
          · intro h; simp at h

/-! ## Structural lemmas about the keep-alive loop -/

theorem kaLoop_stopped (expiry : Nat) :
    ∀ evs s, (kaLoop expiry s evs).stopped = occursB KAEv.stop evs := by
  intro evs
  induction evs with
  | nil => intro s; simp [kaLoop, occursB]
  | cons e rest ih =>
    intro s
    cases e with
    | stop => simp [kaLoop, occursB]
    | tick =>
      cases s with
      | none => simp [kaLoop, expireOp, occursB, ih none]
      | some ttl => simp [kaLoop, expireOp, occursB, ih (some expiry)]
    | extExpire => simp [kaLoop, occursB, ih none]

theorem kaLoop_countExpire (expiry : Nat) :
    ∀ evs s, countExpire (kaLoop expiry s evs).acts = ticksBefore evs := by
  intro evs
  induction evs with
  | nil => intro s; simp [kaLoop, countExpire, ticksBefore]
  | cons e rest ih =>
    intro s
    cases e with
    | stop => simp [kaLoop, countExpire, ticksBefore]
    | tick =>
      cases s with
      | none => simp [kaLoop, expireOp, countExpire, ticksBefore, ih none]
      | some ttl =>
        simp [kaLoop, expireOp, countExpire, ticksBefore, ih (some expiry)]
    | extExpire => simp [kaLoop, countExpire, ticksBefore, ih none]

theorem kaLoop_none_lease (expiry : Nat) :
    ∀ evs, (kaLoop expiry (none : Option Nat) evs).lease = none := by
  intro evs
  induction evs with
  | nil => simp [kaLoop]
  | cons e rest ih =>
    cases e with
    | stop => simp [kaLoop]
    | tick => simp [kaLoop, expireOp, ih]
    | extExpire => simp [kaLoop, ih]

/-! ## A prefix lemma for the environment filter -/

theorem isPrefixOf_append_cons {α : Type} [DecidableEq α] :
    ∀ (p k : List α) (c : α) (v : List α), c ∉ p →
      (p <+: k ++ c :: v ↔ p <+: k) := by
  intro p
  induction p with
  | nil => intro k c v _; simp
  | cons a p' ih =>
    intro k c v hc
    cases k with
    | nil =>
      simp only [List.nil_append]
      constructor
      · intro h
        rw [List.cons_prefix_cons] at h
        exact absurd (h.1 ▸ List.mem_cons_self a p') hc
      · intro h
        exact absurd h (by simp)
    | cons b k' =>
      simp only [List.cons_append, List.cons_prefix_cons]
      constructor
      · rintro ⟨hab, hp⟩
        exact ⟨hab, (ih k' c v (fun hm => hc (List.mem_cons_of_mem a hm))).mp hp⟩
      · rintro ⟨hab, hp⟩
        exact ⟨hab, (ih k' c v (fun hm => hc (List.mem_cons_of_mem a hm))).mpr hp⟩

/-- The filter at src/main.go:283 tests the whole `"k=v"` string for the
`"W8Y_"` prefix; on an entry built from name `k` and value `v` this is
exactly a test of the name, because the separator `=` does not occur in
the prefix. -/
theorem w8yPrefix_envEntry (k v : Str) :
    w8yPrefix.isPrefixOf (envEntry k v) = w8yPrefix.isPrefixOf k := by
  have h : ('=' : Char) ∉ w8yPrefix := by decide
  have hiff := isPrefixOf_append_cons w8yPrefix k '=' v h
  rw [Bool.eq_iff_iff]
  simp only [ List.isPrefixOf_iff_prefix, envEntry]
  exact hiff

theorem runMain_claimed_exitCode (o : Oracle)
    (h : (runMain o).claimed.isSome) :
    (runMain o).exitCode = waitCode o.waitResult := by
  unfold runMain at h ⊢
  revert h
  cases o.llenResp with
  | err => intro h; simp at h
  | ok n =>
    by_cases hn : n ≤ 0
    · simp only [if_pos hn]
      intro h; simp at h
    · simp only [if_neg hn]
      exact mainLoop_claimed_exitCode o n.toNat 0

/-! ## The claims -/

/-- Claim C5: a traversal pass reads the list length exactly once, at the
start (the trace begins with the single `LLEN` call), and performs at most
that many rotate operations before terminating — for every store
behaviour, hence regardless of concurrent growth of the list. -/
theorem c5_bounded_traversal (o : Oracle) (n : Int)
    (h : o.llenResp = .ok n) :
    (runMain o).trace.head? = some Ev.llen ∧
    llenCount (runMain o).trace = 1 ∧
    rotationCount (runMain o).trace ≤ n.toNat := by
  unfold runMain
  rw [h]
  by_cases hn : n ≤ 0
  · simp only [if_pos hn]
    exact ⟨rfl, rfl, Nat.zero_le _⟩
  · simp only [if_neg hn]
    refine ⟨rfl, ?_, ?_⟩
    · simp only [llenCount]
      rw [mainLoop_llenCount o n.toNat 0]
    · simp only [rotationCount]
      exact mainLoop_rotation_le o n.toNat 0

/-- Witness for C5: the one-item claim run reads the length once and
rotates at most once. -/
theorem c5_bounded_traversal_witness :
    (runMain oracleClaim).trace.head? = some Ev.llen ∧
    llenCount (runMain oracleClaim).trace = 1 ∧
    rotationCount (runMain oracleClaim).trace ≤ (1 : Int).toNat :=
  c5_bounded_traversal oracleClaim 1 rfl

/-- Claim C6: one traversal step rotates the list left — the head is
removed and appended as the new tail — which preserves the multiset of
items; and the first action of every loop iteration is the rotate, so the
rotation happens whether the subsequent existence check reports the item
claimable or not. -/
theorem c6_rotate_preserves_multiset :
    (∀ (h : Str) (t : List Str),
      lmoveLeftRight (h :: t) = some (h, t ++ [h]) ∧
      ((t ++ [h] : List Str) : Multiset Str) = ((h :: t : List Str) : Multiset Str)) ∧
    ∀ (o : Oracle) (rem i : Nat),
      (mainLoop o (rem + 1) i).trace.head? = some (Ev.lmove i) := by
  constructor
  · intro h t
    exact ⟨rfl, Multiset.coe_eq_coe.mpr (List.perm_append_singleton h t)⟩
  · intro o rem i
    unfold mainLoop
    cases o.lmoveResp i with
    | err => rfl
    | ok item =>
      cases o.existsResp i with
      | err => rfl
      | ok ex =>
        by_cases hex : ex ≠ 0
        · simp only [if_pos hex]
          rfl
        · simp only [if_neg hex]
          unfold claimPath
          split <;> rfl

/-- Claim C7: a store failure of the length query, the rotate, or the
lease-existence check aborts the current pass at once with exit code 2:
no further store call is issued, no keep-alive task (whose first act
creates the lease key) is spawned, and no item is treated as claimable. -/
theorem c7_store_error_aborts :
    (∀ o : Oracle, o.llenResp = .err →
      runMain o = { exitCode := 2, trace := [Ev.llen], claimed := none,
                    keepAliveSpawned := false }) ∧
    (∀ (o : Oracle) (rem i : Nat), o.lmoveResp i = .err →
      mainLoop o (rem + 1) i =
        { exitCode := 2, trace := [Ev.lmove i], claimed := none,
          keepAliveSpawned := false }) ∧
    (∀ (o : Oracle) (rem i : Nat) (item : Str), o.lmoveResp i = .ok item →
      o.existsResp i = .err →
      mainLoop o (rem + 1) i =
        { exitCode := 2, trace := [Ev.lmove i, Ev.existsQ i], claimed := none,
          keepAliveSpawned := false }) := by
  refine ⟨?_, ?_, ?_⟩
  · intro o h; unfold runMain; rw [h]
  · intro o rem i h; unfold mainLoop; rw [h]
  · intro o rem i item h1 h2; unfold mainLoop; rw [h1, h2]

/-- Witness for C7: concrete stores failing at each of the three
traversal calls. -/
theorem c7_store_error_aborts_witness :
    runMain oracleLlenErr =
      { exitCode := 2, trace := [Ev.llen], claimed := none,
        keepAliveSpawned := false } ∧
    mainLoop oracleLmoveErr 1 0 =
      { exitCode := 2, trace := [Ev.lmove 0], claimed := none,
        keepAliveSpawned := false } ∧
    mainLoop oracleExistsErr 1 0 =
      { exitCode := 2, trace := [Ev.lmove 0, Ev.existsQ 0], claimed := none,
        keepAliveSpawned := false } :=
  ⟨c7_store_error_aborts.1 oracleLlenErr rfl,
   c7_store_error_aborts.2.1 oracleLmoveErr 0 0 rfl,
   c7_store_error_aborts.2.2 oracleExistsErr 0 0 ['a'] rfl rfl⟩

/-- Claim C8: a zero length read at the start of the pass short-circuits
to the no-work outcome — exit code 0, nothing claimed, no keep-alive
spawned — and no rotate operation is ever issued. -/
theorem c8_empty_list_no_rotate (o : Oracle) (h : o.llenResp = .ok 0) :
    runMain o = { exitCode := 0, trace := [Ev.llen], claimed := none,
                  keepAliveSpawned := false } ∧
    rotationCount (runMain o).trace = 0 := by
  unfold runMain
  rw [h]
  norm_num [rotationCount]

/-- Witness for C8: the concrete empty-list store. -/
theorem c8_empty_list_no_rotate_witness :
    runMain oracleEmpty =
      { exitCode := 0, trace := [Ev.llen], claimed := none,
        keepAliveSpawned := false } ∧
    rotationCount (runMain oracleEmpty).trace = 0 :=
  c8_empty_list_no_rotate oracleEmpty rfl

/-- Claim C9: the renewal loop runs on the fixed interval `expiry / 2`
(half the lease TTL); while no stop signal has been received it issues one
expiry refresh per tick; a refresh that reports the key missing is logged
and the loop continues without re-creating the key (from a missing key the
lease stays missing forever); and only the stop signal terminates the
loop. -/
theorem c9_renewal_loop_behavior (expiry : Nat) (s : Option Nat)
    (evs : List KAEv) :
    renewInterval expiry = expiry / 2 ∧
    (kaLoop expiry s evs).stopped = occursB KAEv.stop evs ∧
    countExpire (keepAlive expiry s evs).acts = ticksBefore evs ∧
    (kaLoop expiry none evs).lease = none ∧
    kaLoop expiry none (KAEv.tick :: evs) =
      (let r := kaLoop expiry none evs
       { r with acts := KAAct.expire false :: r.acts,
                notUpdatedLogs := 1 + r.notUpdatedLogs }) := by
  refine ⟨rfl, kaLoop_stopped expiry evs s, ?_,
          kaLoop_none_lease expiry evs, ?_⟩
  · unfold keepAlive
    simp only [countExpire]
    exact kaLoop_countExpire expiry evs (setexOp expiry s)
  · rfl

/-- Claim C10: the child environment is the single added binding
`workItemKey=workItem` followed by exactly the parent entries whose name
does not begin with `W8Y_`, unchanged and in order — so every
`W8Y_`-prefixed parent variable is dropped and every other parent variable
passes through. -/
theorem c10_child_env (wk wi : Str) (parent : List (Str × Str)) :
    prepareEnv wk wi (parent.map fun p => envEntry p.1 p.2) =
      envEntry wk wi ::
        (parent.filter fun p => !(w8yPrefix.isPrefixOf p.1)).map
          fun p => envEntry p.1 p.2 := by
  simp only [prepareEnv, List.cons.injEq, true_and]
  induction parent with
  | nil => rfl
  | cons p rest ih =>
    simp only [List.map_cons, List.filter_cons, w8yPrefix_envEntry]
    cases hb : w8yPrefix.isPrefixOf p.1 with
    | false => simp [ih]
    | true => simp [ih]

/-- Counterexample to claim C1 as stated: two claim attempts on the same
key, interleaved check/check/create/create over an initially absent key,
both observe the key absent and both acquire — the existence check
(src/main.go:67) and the key creation (src/main.go:309) are two separate
store operations, not an atomic conditional-create. -/
theorem c1_interleaved_both_acquire :
    acquired (runRace 5 [true, false, true, false]
      (attempt0, attempt0, none)).1 = true ∧
    acquired (runRace 5 [true, false, true, false]
      (attempt0, attempt0, none)).2.1 = true := by decide

/-- Claim C1 (amended): a claim attempt is an `EXISTS` check followed —
only when the check reported the key absent — by an unconditional `SETEX`.
When two attempts run sequentially (both operations of the first before
any of the second), at most one acquires: the first acquires exactly when
the key was absent and the second never does; but the two operations are
not atomic, so interleaved attempts may both acquire. -/
theorem c1_sequential_exclusive (expiry : Nat) (key : Option Nat) :
    acquired (runRace expiry [true, true, false, false]
      (attempt0, attempt0, key)).1 = key.isNone ∧
    acquired (runRace expiry [true, true, false, false]
      (attempt0, attempt0, key)).2.1 = false := by
  cases key <;> exact ⟨rfl, rfl⟩

/-- Counterexample to claim C2 as stated: the run that claims an item and
whose worker completes never issues a delete of the lease key — its trace
contains no delete event — and the renewal loop's stop leaves the key in
place (here with its last-set TTL), to be expired by the store. The
stored value is the constant 1, not a per-acquisition token. -/
theorem c2_no_release_performed :
    occursB Ev.del (runMain oracleClaim).trace = false ∧
    (keepAlive 4 none [KAEv.tick, KAEv.stop]).lease = some 4 := by decide

/-- Claim C2 (amended): after the worker terminates — on both exit paths
of a started worker, normal and abnormal alike — the program closes the
completion channel and then waits for the renewal task to fully quiesce
before exiting; it performs no delete of the lease key on any path, and a
stop signal leaves the key state untouched, so the key is reclaimed only
by TTL expiry. -/
theorem c2_quiesce_no_delete (o : Oracle)
    (h : (runMain o).keepAliveSpawned = true) :
    [Ev.workerWait, Ev.closeIsComplete, Ev.waitDone] <:+ (runMain o).trace ∧
    occursB Ev.del (runMain o).trace = false ∧
    ∀ (expiry : Nat) (s : Option Nat) (evs : List KAEv),
      (kaLoop expiry s (KAEv.stop :: evs)).lease = s := by
  unfold runMain at h ⊢
  revert h
  cases o.llenResp with
  | err => intro h; simp at h
  | ok n =>
    by_cases hn : n ≤ 0
    · simp only [if_pos hn]
      intro h; simp at h
    · simp only [if_neg hn]
      intro h
      refine ⟨?_, ?_, fun _ _ _ => rfl⟩
      · obtain ⟨s, hs⟩ := mainLoop_spawned_suffix o n.toNat 0 h
        exact ⟨Ev.llen :: s, by simp [hs]⟩
      · have := mainLoop_no_del o n.toNat 0
        simp [occursB] at this ⊢
        exact this

/-- Witness for the amended C2 at the concrete one-item claim run. -/
theorem c2_quiesce_no_delete_witness :
    [Ev.workerWait, Ev.closeIsComplete, Ev.waitDone] <:+
      (runMain oracleClaim).trace ∧
    occursB Ev.del (runMain oracleClaim).trace = false ∧
    ∀ (expiry : Nat) (s : Option Nat) (evs : List KAEv),
      (kaLoop expiry s (KAEv.stop :: evs)).lease = s :=
  c2_quiesce_no_delete oracleClaim rfl

/-- Counterexample to claim C3 as stated: in the concrete claim run no
renewal-start event precedes worker start — it is the worker start that
precedes the spawn of the renewal task — and starting the renewal task is
what creates the lease key: its first (and here only) store action is the
`SETEX`, which turns an absent key into a present one. -/
theorem c3_worker_starts_before_renewal :
    precedesB Ev.spawnKeepAlive Ev.workerStart (runMain oracleClaim).trace
      = false ∧
    precedesB Ev.workerStart Ev.spawnKeepAlive (runMain oracleClaim).trace
      = true ∧
    (keepAlive 5 none []).acts = [KAAct.setex] ∧
    setexOp 5 none = some 5 := by decide

/-- Claim C3 (amended): for every claimed item, worker start strictly
precedes renewal start — the worker-start event comes before the spawn of
the keep-alive task in every run that spawns it — and the renewal task's
first store action is an unconditional `SETEX` that itself creates (or
overwrites) the lease key; the periodic renewals use `EXPIRE`, which never
re-creates a missing key. -/
theorem c3_renewal_after_worker_start (o : Oracle)
    (h : (runMain o).keepAliveSpawned = true) :
    precedesB Ev.workerStart Ev.spawnKeepAlive (runMain o).trace = true ∧
    ∀ (expiry : Nat) (s : Option Nat) (evs : List KAEv),
      (keepAlive expiry s evs).acts.head? = some KAAct.setex ∧
      setexOp expiry s = some expiry ∧
      (expireOp expiry none).1 = none := by
  unfold runMain at h ⊢
  revert h
  cases o.llenResp with
  | err => intro h; simp at h
  | ok n =>
    by_cases hn : n ≤ 0
    · simp only [if_pos hn]
      intro h; simp at h
    · simp only [if_neg hn]
      intro h
      refine ⟨?_, fun _ _ _ => ⟨rfl, rfl, rfl⟩⟩
      exact precedesB_cons_of _ _ _ _
        (mainLoop_start_precedes_spawn o n.toNat 0 h)

/-- Witness for the amended C3 at the concrete one-item claim run. -/
theorem c3_renewal_after_worker_start_witness :
    precedesB Ev.workerStart Ev.spawnKeepAlive (runMain oracleClaim).trace
      = true ∧
    ∀ (expiry : Nat) (s : Option Nat) (evs : List KAEv),
      (keepAlive expiry s evs).acts.head? = some KAAct.setex ∧
      setexOp expiry s = some expiry ∧
      (expireOp expiry none).1 = none :=
  c3_renewal_after_worker_start oracleClaim rfl

/-- Counterexample to claim C4 as stated: the empty-list "no work" run and
the run that claims an item whose worker reports result 0 exit with the
same code 0 — the caller cannot tell them apart. -/
theorem c4_no_work_equals_worker_zero :
    (runMain oracleEmpty).claimed = none ∧
    (runMain oracleEmpty).exitCode = 0 ∧
    (runMain oracleWorkerZero).claimed = some ['a'] ∧
    (runMain oracleWorkerZero).exitCode = 0 := by decide

/-- Claim C4 (amended): the no-work outcome is reported as exit code 0, a
store-connectivity failure as exit code 2, and a claimed-and-processed
run as the worker's result code R — so the processed outcome is
distinguishable from "no work" exactly when R is not 0 and from a store
failure exactly when R is not 2, while "no work" and store failure are
always distinguishable from each other. -/
theorem c4_exit_code_outcomes (o₀ o₁ o₂ : Oracle) (R : Int)
    (h₀ : o₀.llenResp = .ok 0) (h₁ : o₁.llenResp = .err)
    (h₂ : (runMain o₂).claimed.isSome = true)
    (hw : o₂.waitResult = .exitErr R) :
    (runMain o₀).exitCode = 0 ∧ (runMain o₁).exitCode = 2 ∧
    (runMain o₂).exitCode = R ∧
    ((runMain o₂).exitCode ≠ (runMain o₀).exitCode ↔ R ≠ 0) ∧
    ((runMain o₂).exitCode ≠ (runMain o₁).exitCode ↔ R ≠ 2) ∧
    (runMain o₀).exitCode ≠ (runMain o₁).exitCode := by
  have e₀ : (runMain o₀).exitCode = 0 := by
    unfold runMain; rw [h₀]; norm_num
  have e₁ : (runMain o₁).exitCode = 2 := by
    unfold runMain; rw [h₁]
  have e₂ : (runMain o₂).exitCode = R := by
    rw [runMain_claimed_exitCode o₂ h₂, hw]
    rfl
  rw [e₀, e₁, e₂]
  norm_num

/-- Witness for the amended C4: empty list, failing store, and a claim
run whose worker reports result 7. -/
theorem c4_exit_code_outcomes_witness :
    (runMain oracleEmpty).exitCode = 0 ∧
    (runMain oracleLlenErr).exitCode = 2 ∧
    (runMain oracleWorkerSeven).exitCode = 7 ∧
    ((runMain oracleWorkerSeven).exitCode ≠ (runMain oracleEmpty).exitCode
      ↔ (7 : Int) ≠ 0) ∧
    ((runMain oracleWorkerSeven).exitCode ≠ (runMain oracleLlenErr).exitCode
      ↔ (7 : Int) ≠ 2) ∧
    (runMain oracleEmpty).exitCode ≠ (runMain oracleLlenErr).exitCode :=
  c4_exit_code_outcomes oracleEmpty oracleLlenErr oracleWorkerSeven 7
    rfl rfl (by decide) rfl

end W8y
